import Mathlib

/-!
Verification of the news-digest pipeline (news_digest.py).

Shallow embedding conventions:
  * Python `None`-able string fields become `Option String`.
  * Python truthiness of an optional string (`None` and `""` are falsy)
    is `pyTruthy`.
  * External capabilities (HTTP transport, feed parsing, the LLM call,
    the SQLite store availability, SendGrid delivery) are injected as
    values or functions; an operation that can raise returns `Except`.
  * An uncaught Python exception is a propagated `Except.error`.
-/

/-- Python truthiness of an optional string: `None` and `""` are falsy. -/
def pyTruthy (o : Option String) : Bool :=
  match o with
  | none => false
  | some s => s ≠ ""

/-- Python `a or b` on optional strings: `a` when truthy, else `b`. -/
def pyOr (a b : Option String) : Option String :=
  if pyTruthy a then a else b

/-- The normalized article dict built by both adapters:
`{id, title, url, source, published}` (the `raw` field carries no
behaviour downstream and is omitted). -/
structure Article where
  id : Option String
  title : Option String
  url : Option String
  source : Option String
  published : Option String
deriving DecidableEq, Repr

/-- Identity key used by `dedupe_and_filter`:
`a.get("id") or a.get("url") or a.get("title")`. -/
def derived_key (a : Article) : Option String :=
  pyOr a.id (pyOr a.url a.title)

/-- The key string actually used once the truthiness guard passed. -/
def articleKey (a : Article) : String :=
  (derived_key a).getD ""

/-- Failure of a SQLite operation (e.g. `OperationalError`), or the
uniqueness / not-null violation raised by a conflicting insert. -/
inductive StoreError where
  | opError (msg : String)
  | integrityError
deriving DecidableEq, Repr

/-- Transport-level failure of `requests.get` / `r.json()`. -/
inductive NetError where
  | timeout
  | transportFail (msg : String)
deriving DecidableEq, Repr

/-- Exception escaping `feedparser.parse` or the per-entry loop body. -/
inductive FeedError where
  | parseFail (msg : String)
  | typeError
deriving DecidableEq, Repr

/-- Failure raised out of `send_email_via_sendgrid`: missing
configuration (`RuntimeError`) or a re-raised SendGrid error. -/
inductive DeliveryError where
  | notConfigured
  | sendFail (msg : String)
deriving DecidableEq, Repr

/-- An uncaught exception terminating `main`. -/
inductive RunError where
  | net (e : NetError)
  | store (e : StoreError)
  | delivery (e : DeliveryError)
deriving DecidableEq, Repr

/-- The raw SQL insert of `add_seen` before the `except` clause: the
`seen_articles` table has `article_id` UNIQUE NOT NULL, so inserting
`None` or an already-present key raises. The store state is the list of
`article_id` values in insertion order. -/
def tryInsert (s : List String) (k : Option String) : Except StoreError (List String) :=
  match k with
  | none => .error .integrityError
  | some key => if key ∈ s then .error .integrityError else .ok (s ++ [key])

/-- Function `add_seen`: executes the insert and swallows every
exception (`except Exception: pass`), so the caller always gets back a
store state and never an error. -/
def add_seen (s : List String) (k : Option String) : List String :=
  match tryInsert s k with
  | .ok s2 => s2
  | .error _ => s

/-- Function `is_seen` on a reachable store: the SELECT by exact
`article_id` finds a row iff the key was ever successfully inserted. -/
def is_seen (s : List String) (k : String) : Bool :=
  k ∈ s

/-- One element of `data.get("articles", [])` in the NewsAPI JSON
response, with the fields `fetch_newsapi` reads. -/
structure NewsApiArticle where
  url : Option String
  title : Option String
  sourceName : Option String
  publishedAt : Option String
deriving DecidableEq, Repr

/-- The decoded NewsAPI JSON body: `data.get("status")` and
`data.get("articles", [])`. -/
structure NewsApiResponse where
  status : Option String
  articles : List NewsApiArticle
deriving DecidableEq, Repr

/-- Normalization of one NewsAPI article inside the loop of
`fetch_newsapi`: `art_id = a.get("url")`, and the remaining fields are
copied. -/
def newsapi_to_article (a : NewsApiArticle) : Article :=
  { id := a.url, title := a.title, url := a.url,
    source := a.sourceName, published := a.publishedAt }

/-- Function `fetch_newsapi`. `apiKey` is `NEWSAPI_KEY`; `transport` is
the combined outcome of `requests.get` and `r.json()`. There is no
`try` around the request, so a transport error propagates to the
caller. -/
def fetch_newsapi (apiKey : Option String)
    (transport : Except NetError NewsApiResponse) :
    Except NetError (List Article) :=
  if pyTruthy apiKey then
    match transport with
    | .error e => .error e
    | .ok data =>
        if data.status = some "ok" then
          .ok (data.articles.map newsapi_to_article)
        else
          .ok []
  else
    .ok []

/-- One feedparser entry, with the fields `fetch_rss_feeds` reads. -/
structure RssEntry where
  link : Option String
  entryId : Option String
  title : Option String
  published : Option String
  updated : Option String
deriving DecidableEq, Repr

/-- A parsed feed: `parsed.feed.get("title")` and `parsed.entries`. -/
structure RssFeedData where
  feedTitle : Option String
  entries : List RssEntry
deriving DecidableEq, Repr

/-- One configured feed URL together with the outcome of
`feedparser.parse` on it. -/
structure RssFeedFetch where
  url : String
  parsed : Except FeedError RssFeedData
deriving Repr

/-- Key expression of an RSS entry:
`e.get("link") or e.get("id") or (e.get("title") + e.get("published", ""))`.
When `link` and `id` are falsy and `title` is `None`, the concatenation
raises `TypeError` (caught by the per-feed handler). -/
def entry_art_id (e : RssEntry) : Except FeedError String :=
  if pyTruthy e.link then .ok (e.link.getD "")
  else if pyTruthy e.entryId then .ok (e.entryId.getD "")
  else
    match e.title with
    | none => .error .typeError
    | some t => .ok (t ++ e.published.getD "")

/-- Published expression of an RSS entry:
`e.get("published") or e.get("updated") or ""`. -/
def entry_pub (e : RssEntry) : String :=
  if pyTruthy e.published then e.published.getD ""
  else if pyTruthy e.updated then e.updated.getD ""
  else ""

/-- The article dict appended for one RSS entry, given the feed-level
source string. -/
def entry_to_article (src : String) (e : RssEntry) : Except FeedError Article :=
  match entry_art_id e with
  | .error er => .error er
  | .ok k =>
      .ok { id := some k, title := e.title, url := e.link,
            source := some src, published := some (entry_pub e) }

/-- The per-feed entry loop: entries are appended in order until one
raises; the exception is caught at the feed boundary, keeping the
prefix appended so far. -/
def process_entries (src : String) : List RssEntry → List Article
  | [] => []
  | e :: es =>
      match entry_to_article src e with
      | .error _ => []
      | .ok a => a :: process_entries src es

/-- Source string of a feed: `parsed.feed.get("title") or feed`. -/
def feed_source (f : RssFeedFetch) (d : RssFeedData) : String :=
  if pyTruthy d.feedTitle then d.feedTitle.getD "" else f.url

/-- Function `fetch_rss_feeds`: iterates the configured feeds; a feed
whose parse (or entry loop) raises contributes only the entries already
appended (`except Exception: continue`), and never aborts the other
feeds. -/
def fetch_rss_feeds : List RssFeedFetch → List Article
  | [] => []
  | f :: fs =>
      (match f.parsed with
       | .error _ => []
       | .ok d => process_entries (feed_source f d) d.entries)
      ++ fetch_rss_feeds fs

/-- Sort key in `main`: `x.get("published") or ""`. -/
def pubKey (a : Article) : String :=
  a.published.getD ""

/-- Stable insertion into a list already ordered by `le`: the new
element comes from earlier in the original sequence, so it is placed
before any element it ties with. -/
def insertStable (le : Article → Article → Bool) (a : Article) :
    List Article → List Article
  | [] => [a]
  | b :: bs => if le a b then a :: b :: bs else b :: insertStable le a bs

/-- Stable sort by `le` (earlier input elements precede tied later
ones), modelling the stability contract of Python `sorted`. -/
def stableSortBy (le : Article → Article → Bool) : List Article → List Article
  | [] => []
  | a :: as_ => insertStable le a (stableSortBy le as_)

/-- The sort in `main`:
`sorted(all_articles, key=lambda x: x.get("published") or "", reverse=True)`
is the stable sort descending by the raw published string (missing
values as `""`). -/
def sort_by_published (l : List Article) : List Article :=
  stableSortBy (fun x y => pubKey y ≤ pubKey x) l

/-- The loop of `dedupe_and_filter`, carrying the key set of the
`unique` dict. `hasSeen` is the `is_seen` capability over the store as
it stands at dedupe time; an exception from it propagates (there is no
`try` in this function). Emission order is dict insertion order. -/
def dedupe_go (hasSeen : String → Except StoreError Bool) :
    List Article → List String → Except StoreError (List Article)
  | [], _ => .ok []
  | a :: rest, ks =>
      if pyTruthy (derived_key a) then
        match hasSeen (articleKey a) with
        | .error e => .error e
        | .ok true => dedupe_go hasSeen rest ks
        | .ok false =>
            if articleKey a ∈ ks then dedupe_go hasSeen rest ks
            else
              match dedupe_go hasSeen rest (articleKey a :: ks) with
              | .error e => .error e
              | .ok out => .ok (a :: out)
      else
        dedupe_go hasSeen rest ks

/-- Function `dedupe_and_filter`. -/
def dedupe_and_filter (hasSeen : String → Except StoreError Bool)
    (articles : List Article) : Except StoreError (List Article) :=
  dedupe_go hasSeen articles []

/-- The merge-and-dedupe stage as sequenced by `main`: sort by recency,
dedupe against the store and in batch, truncate to `MAX_STORIES`. -/
def dedupe_stage (maxStories : Nat)
    (hasSeen : String → Except StoreError Bool) (l : List Article) :
    Except StoreError (List Article) :=
  match dedupe_and_filter hasSeen (sort_by_published l) with
  | .error e => .error e
  | .ok out => .ok (out.take maxStories)

/-- A Python value as produced by `json.loads` (plus dicts built in the
code). Numbers are modelled as rationals. -/
inductive PyVal where
  | vnone
  | vbool (b : Bool)
  | vnum (q : Rat)
  | vstr (s : String)
  | vlist (l : List PyVal)
  | vdict (d : List (String × PyVal))
deriving Repr

mutual

/-- Structural decidable equality on `PyVal`, modelling Python `==` on
JSON-shaped values. -/
def decEqPyVal : (a b : PyVal) → Decidable (a = b)
  | .vnone, .vnone => .isTrue rfl
  | .vnone, .vbool _ => .isFalse (fun h => nomatch h)
  | .vnone, .vnum _ => .isFalse (fun h => nomatch h)
  | .vnone, .vstr _ => .isFalse (fun h => nomatch h)
  | .vnone, .vlist _ => .isFalse (fun h => nomatch h)
  | .vnone, .vdict _ => .isFalse (fun h => nomatch h)
  | .vbool _, .vnone => .isFalse (fun h => nomatch h)
  | .vbool x, .vbool y =>
      if h : x = y then .isTrue (by rw [h]) else .isFalse (fun hh => h (by cases hh; rfl))
  | .vbool _, .vnum _ => .isFalse (fun h => nomatch h)
  | .vbool _, .vstr _ => .isFalse (fun h => nomatch h)
  | .vbool _, .vlist _ => .isFalse (fun h => nomatch h)
  | .vbool _, .vdict _ => .isFalse (fun h => nomatch h)
  | .vnum _, .vnone => .isFalse (fun h => nomatch h)
  | .vnum _, .vbool _ => .isFalse (fun h => nomatch h)
  | .vnum x, .vnum y =>
      if h : x = y then .isTrue (by rw [h]) else .isFalse (fun hh => h (by cases hh; rfl))
  | .vnum _, .vstr _ => .isFalse (fun h => nomatch h)
  | .vnum _, .vlist _ => .isFalse (fun h => nomatch h)
  | .vnum _, .vdict _ => .isFalse (fun h => nomatch h)
  | .vstr _, .vnone => .isFalse (fun h => nomatch h)
  | .vstr _, .vbool _ => .isFalse (fun h => nomatch h)
  | .vstr _, .vnum _ => .isFalse (fun h => nomatch h)
  | .vstr x, .vstr y =>
      if h : x = y then .isTrue (by rw [h]) else .isFalse (fun hh => h (by cases hh; rfl))
  | .vstr _, .vlist _ => .isFalse (fun h => nomatch h)
  | .vstr _, .vdict _ => .isFalse (fun h => nomatch h)
  | .vlist _, .vnone => .isFalse (fun h => nomatch h)
  | .vlist _, .vbool _ => .isFalse (fun h => nomatch h)
  | .vlist _, .vnum _ => .isFalse (fun h => nomatch h)
  | .vlist _, .vstr _ => .isFalse (fun h => nomatch h)
  | .vlist x, .vlist y =>
      match decEqPyValList x y with
      | .isTrue h => .isTrue (by rw [h])
      | .isFalse h => .isFalse (fun hh => h (by cases hh; rfl))
  | .vlist _, .vdict _ => .isFalse (fun h => nomatch h)
  | .vdict _, .vnone => .isFalse (fun h => nomatch h)
  | .vdict _, .vbool _ => .isFalse (fun h => nomatch h)
  | .vdict _, .vnum _ => .isFalse (fun h => nomatch h)
  | .vdict _, .vstr _ => .isFalse (fun h => nomatch h)
  | .vdict _, .vlist _ => .isFalse (fun h => nomatch h)
  | .vdict x, .vdict y =>
      match decEqPyValDict x y with
      | .isTrue h => .isTrue (by rw [h])
      | .isFalse h => .isFalse (fun hh => h (by cases hh; rfl))

/-- Decidable equality on lists of `PyVal`. -/
def decEqPyValList : (a b : List PyVal) → Decidable (a = b)
  | [], [] => .isTrue rfl
  | [], _ :: _ => .isFalse (fun h => nomatch h)
  | _ :: _, [] => .isFalse (fun h => nomatch h)
  | x :: xs, y :: ys =>
      match decEqPyVal x y with
      | .isFalse h => .isFalse (fun hh => h (List.cons.inj hh).1)
      | .isTrue h1 =>
          match decEqPyValList xs ys with
          | .isTrue h2 => .isTrue (by rw [h1, h2])
          | .isFalse h2 => .isFalse (fun hh => h2 (List.cons.inj hh).2)

/-- Decidable equality on string-keyed `PyVal` association lists. -/
def decEqPyValDict : (a b : List (String × PyVal)) → Decidable (a = b)
  | [], [] => .isTrue rfl
  | [], _ :: _ => .isFalse (fun h => nomatch h)
  | _ :: _, [] => .isFalse (fun h => nomatch h)
  | (k1, v1) :: xs, (k2, v2) :: ys =>
      if hk : k1 = k2 then
        match decEqPyVal v1 v2 with
        | .isTrue hv =>
            match decEqPyValDict xs ys with
            | .isTrue ht => .isTrue (by rw [hk, hv, ht])
            | .isFalse ht => .isFalse (fun hh => ht (List.cons.inj hh).2)
        | .isFalse hv =>
            .isFalse (fun hh => hv (congrArg Prod.snd (List.cons.inj hh).1))
      else
        .isFalse (fun hh => hk (congrArg Prod.fst (List.cons.inj hh).1))

end

instance : DecidableEq PyVal := decEqPyVal

/-- Python truthiness of an arbitrary value: `None`, `False`, `0`,
`""`, `[]` and `{}` (written with escaped braces) are falsy. -/
def pyValTruthy : PyVal → Bool
  | .vnone => false
  | .vbool b => b
  | .vnum q => q ≠ 0
  | .vstr s => s ≠ ""
  | .vlist l => !l.isEmpty
  | .vdict d => !d.isEmpty

/-- Python `dict.get(k)`: the binding for `k` (last wins, as in
`json.loads`) or `None`. -/
def dictGet (d : List (String × PyVal)) (k : String) : PyVal :=
  match d.reverse.find? (fun p => p.1 == k) with
  | some p => p.2
  | none => .vnone

/-- Python `repr` of a value, as used by `str` inside containers
(string formatting of rationals stands in for CPython float repr; no
claim depends on this rendering). -/
def pyRepr : PyVal → String
  | .vnone => "None"
  | .vbool true => "True"
  | .vbool false => "False"
  | .vnum q => toString q
  | .vstr s => "\x27" ++ s ++ "\x27"
  | .vlist l =>
      "[" ++ String.intercalate ", " (l.attach.map (fun x => pyRepr x.1)) ++ "]"
  | .vdict d =>
      "\x7b" ++
        String.intercalate ", "
          (d.attach.map (fun x => "\x27" ++ x.1.1 ++ "\x27: " ++ pyRepr x.1.2)) ++
        "\x7d"
decreasing_by
  all_goals simp_wf
  · have := List.sizeOf_lt_of_mem x.2
    omega
  · have h1 := List.sizeOf_lt_of_mem x.2
    have h2 : sizeOf x.1.2 < sizeOf x.1 := by
      obtain ⟨⟨a, b⟩, hm⟩ := x
      simp
    omega

/-- Python `str` of a value: a bare string for `str`, `repr`-style
otherwise. -/
def pyStr : PyVal → String
  | .vstr s => s
  | v => pyRepr v

/-- Outcome of the ChatCompletion capability for one article: the call
raised; or it returned (stripped) text that `json.loads` rejects; or
text that parses to the given value. -/
inductive LlmOutcome where
  | fail
  | unparsable (out : String)
  | parsed (v : PyVal)

/-- Function `call_llm_for_article`: a parsed JSON response is returned
as-is; unparsable output is wrapped with `out[:400]` as summary and
defaults; a raised call falls back to `article.get("title") or ""` as
summary and defaults. -/
def call_llm_for_article (article : Article) : LlmOutcome → PyVal
  | .parsed v => v
  | .unparsable out =>
      .vdict [("summary", .vstr (out.take 400)), ("tags", .vlist [.vstr "Other"]),
              ("sentiment", .vstr "Neutral"), ("score", .vnum (1/2))]
  | .fail =>
      .vdict [("summary", .vstr (article.title.getD "")),
              ("tags", .vlist [.vstr "Other"]),
              ("sentiment", .vstr "Neutral"), ("score", .vnum (1/2))]

/-- The `info` dict built per candidate in the loop of `main`. -/
structure DigestItem where
  title : Option String
  url : Option String
  source : Option String
  published : Option String
  summary : PyVal
  tags : PyVal
  sentiment : PyVal
  score : PyVal
deriving DecidableEq, Repr

/-- The per-item enrichment in the loop of `main` (lines building
`info`): `nd` is the `normalize_date` capability (dateparser plus
timezone conversion, external). The `isinstance(llm, dict)` test picks
between reading the response fields and the stringified fallback. -/
def enrich (nd : Option String → Option String) (a : Article)
    (oc : LlmOutcome) : DigestItem :=
  match call_llm_for_article a oc with
  | .vdict d =>
      { title := a.title, url := a.url, source := a.source,
        published := nd a.published,
        summary := dictGet d "summary", tags := dictGet d "tags",
        sentiment := dictGet d "sentiment", score := dictGet d "score" }
  | v =>
      { title := a.title, url := a.url, source := a.source,
        published := nd a.published,
        summary := .vstr ((pyStr v).take 400), tags := .vlist [.vstr "Other"],
        sentiment := .vstr "Neutral", score := .vnum (1/2) }

/-- Primary tag of an item in `group_by_topic`:
`tags = it.get("tags") or ["Other"]` then
`primary = tags[0] if isinstance(tags, list) and tags else "Other"`. -/
def primary_tag (v : PyVal) : PyVal :=
  match (if pyValTruthy v then v else .vlist [.vstr "Other"]) with
  | .vlist (t :: _) => t
  | _ => .vstr "Other"

/-- Appending an item under a hashable key in the insertion-ordered
`grouped` dict of `group_by_topic`, as an association-list update under
structural `PyVal` equality. The keys produced in practice are strings
(`"Other"` or a string tag), for which structural equality coincides
with Python key equality; hashing of the key — which raises for list
or dict keys — happens before this update and is modelled in
`group_by_topic_except`. -/
def insertGroup (g : List (PyVal × List DigestItem)) (k : PyVal)
    (it : DigestItem) : List (PyVal × List DigestItem) :=
  match g with
  | [] => [(k, [it])]
  | (k2, l) :: rest =>
      if k2 = k then (k2, l ++ [it]) :: rest
      else (k2, l) :: insertGroup rest k it

/-- The grouped-dict construction of `group_by_topic` on the hashable
path: partitions items by primary tag into an insertion-ordered dict.
See `group_by_topic_py` for the function as executed by Python,
including its `TypeError` path on unhashable primary tags. -/
def group_by_topic (items : List DigestItem) : List (PyVal × List DigestItem) :=
  items.foldl (fun g it => insertGroup g (primary_tag it.tags) it) []

/-- Python hashability of a value used as a dict key: lists and dicts
are unhashable; every other modelled value is hashable. -/
def pyHashable : PyVal → Bool
  | .vlist _ => false
  | .vdict _ => false
  | _ => true

/-- The `TypeError` raised when an unhashable value is used as a dict
key. -/
inductive GroupError where
  | unhashableType
deriving DecidableEq, Repr

/-- The loop of `group_by_topic` as executed by Python: for each item,
the test `primary not in grouped` first hashes the primary tag and
raises `TypeError` when it is a list or dict (reachable, because a
parsed classification response is copied into `tags` unvalidated); the
exception propagates out of `group_by_topic`, discarding the partial
dict. Hashable keys are inserted by `insertGroup`. -/
def group_by_topic_except (g : List (PyVal × List DigestItem)) :
    List DigestItem → Except GroupError (List (PyVal × List DigestItem))
  | [] => .ok g
  | it :: rest =>
      if pyHashable (primary_tag it.tags) then
        group_by_topic_except (insertGroup g (primary_tag it.tags) it) rest
      else .error .unhashableType

/-- Function `group_by_topic`, `TypeError` path included. -/
def group_by_topic_py (items : List DigestItem) :
    Except GroupError (List (PyVal × List DigestItem)) :=
  group_by_topic_except [] items

/-- Lookup of one group in the grouped dict (empty when absent). -/
def lookupGroup (g : List (PyVal × List DigestItem)) (k : PyVal) :
    List DigestItem :=
  match g with
  | [] => []
  | (k2, l) :: rest => if k2 = k then l else lookupGroup rest k

/-- Total number of items across all groups. -/
def sumSizes (g : List (PyVal × List DigestItem)) : Nat :=
  g.foldr (fun p n => p.2.length + n) 0

/-- The enrich-and-record loop of `main`: per candidate, build `info`
(the DigestItem), append it, then `add_seen(a.get("id"))`. Returns the
produced items in order and the final store state. -/
def process_loop (nd : Option String → Option String)
    (llm : Article → LlmOutcome) :
    List String → List Article → List DigestItem × List String
  | s, [] => ([], s)
  | s, a :: rest =>
      ((enrich nd a (llm a)) :: (process_loop nd llm (add_seen s a.id) rest).1,
       (process_loop nd llm (add_seen s a.id) rest).2)

/-- Function `main`. `dbRead` is the capability reading the store
during `is_seen` (it may fail); `deliver` folds `build_and_send`
after grouping: the jinja render plus `send_email_via_sendgrid`, whose
exceptions propagate and abort the run. The returned pair is the run
outcome and the final persisted store state. -/
def run_main (maxStories : Nat) (apiKey : Option String)
    (transport : Except NetError NewsApiResponse)
    (feeds : List RssFeedFetch)
    (dbRead : List String → String → Except StoreError Bool)
    (nd : Option String → Option String) (llm : Article → LlmOutcome)
    (deliver : List (PyVal × List DigestItem) → Except DeliveryError Unit)
    (store0 : List String) : Except RunError (List DigestItem) × List String :=
  match fetch_newsapi apiKey transport with
  | .error e => (.error (.net e), store0)
  | .ok newsapiArticles =>
      let allArticles := newsapiArticles ++ fetch_rss_feeds feeds
      match dedupe_and_filter (dbRead store0) (sort_by_published allArticles) with
      | .error e => (.error (.store e), store0)
      | .ok cands0 =>
          let cands := cands0.take maxStories
          let processed := (process_loop nd llm store0 cands).1
          let s1 := (process_loop nd llm store0 cands).2
          if processed.isEmpty then (.ok processed, s1)
          else
            match deliver (group_by_topic processed) with
            | .error e => (.error (.delivery e), s1)
            | .ok _ => (.ok processed, s1)

/-- The dedupe loop when every `is_seen` query succeeds: the membership
answers are given by the pure predicate `seenF`. -/
def dedupe_pure (seenF : String → Bool) :
    List Article → List String → List Article
  | [], _ => []
  | a :: rest, ks =>
      if pyTruthy (derived_key a) then
        if seenF (articleKey a) then dedupe_pure seenF rest ks
        else if articleKey a ∈ ks then dedupe_pure seenF rest ks
        else a :: dedupe_pure seenF rest (articleKey a :: ks)
      else
        dedupe_pure seenF rest ks

/-- The list `fetch_newsapi` returns when the transport succeeds. -/
def newsapi_ok_articles (apiKey : Option String) (resp : NewsApiResponse) :
    List Article :=
  if pyTruthy apiKey then
    if resp.status = some "ok" then resp.articles.map newsapi_to_article else []
  else []

/-- The candidate list `main` feeds to the enrichment loop, for a run
whose transport and store reads succeed. -/
def main_candidates (maxStories : Nat) (apiKey : Option String)
    (resp : NewsApiResponse) (feeds : List RssFeedFetch)
    (store0 : List String) : List Article :=
  (dedupe_pure (is_seen store0)
    (sort_by_published (newsapi_ok_articles apiKey resp ++ fetch_rss_feeds feeds))
    []).take maxStories

/-- Store-read capability that fails on key `k1` and answers unseen
elsewhere (concrete input for the C2 analysis). -/
def storeC2 : String → Except StoreError Bool :=
  fun k => if k = "k1" then .error (.opError "db down") else .ok false

/-- Concrete article with key `k1` (C2 analysis). -/
def a1C2 : Article :=
  { id := some "k1", title := some "t1", url := none, source := none,
    published := some "2024-01-02" }

/-- Concrete article with key `k2` (C2 analysis). -/
def a2C2 : Article :=
  { id := some "k2", title := some "t2", url := none, source := none,
    published := some "2024-01-01" }

/-- Concrete article with no explicit id but a url (C3 analysis): its
derived key is the url, yet the loop records `a.get("id")`, which is
`None`. -/
def aC3 : Article :=
  { id := none, title := some "t", url := some "u", source := none,
    published := none }

/-- Concrete article for the C4 analysis. -/
def aC4 : Article :=
  { id := some "k", title := some "T", url := none, source := none,
    published := none }

/-- A well-formed structured classification response whose `tags` list
is empty (C4 analysis). -/
def respC4 : PyVal :=
  .vdict [("summary", .vstr "s"), ("tags", .vlist []),
          ("sentiment", .vstr "Neutral"), ("score", .vnum (1/2))]

/-- A well-formed structured classification response whose `tags` value
is a nested list (C7 analysis): used as-is, its first element reaches
grouping as an unhashable dict key. -/
def respC7 : PyVal :=
  .vdict [("summary", .vstr "s"), ("tags", .vlist [.vlist [.vstr "AI"]]),
          ("sentiment", .vstr "Neutral"), ("score", .vnum (1/2))]

/-- The DigestItem the enrichment stage produces from `respC7`. -/
def itC7 : DigestItem := enrich (fun d => d) aC4 (.parsed respC7)

/-! Helper lemmas. -/

theorem add_seen_mem (s : List String) (k : String) : k ∈ add_seen s (some k) := by
  unfold add_seen tryInsert
  by_cases h : k ∈ s <;> simp [h]

theorem add_seen_of_mem {s : List String} {k : String} (h : k ∈ s) :
    add_seen s (some k) = s := by
  unfold add_seen tryInsert
  simp [h]

theorem add_seen_append (s : List String) (k : Option String) :
    ∃ t, add_seen s k = s ++ t := by
  unfold add_seen tryInsert
  match k with
  | none => exact ⟨[], by simp⟩
  | some key =>
      by_cases h : key ∈ s
      · exact ⟨[], by simp [h]⟩
      · exact ⟨[key], by simp [h]⟩

theorem process_loop_spec (nd : Option String → Option String)
    (llm : Article → LlmOutcome) (s : List String) (cands : List Article) :
    (process_loop nd llm s cands).1 = cands.map (fun a => enrich nd a (llm a)) ∧
    (process_loop nd llm s cands).2 = cands.foldl (fun st a => add_seen st a.id) s := by
  induction cands generalizing s with
  | nil => simp [process_loop]
  | cons a rest ih => simp [process_loop, ih]

/-- C6: recording a key twice is idempotent — the second raw insert
does hit a uniqueness conflict, but `add_seen` suppresses it, so no
error is visible to the caller and the store is unchanged — and a
subsequent membership check for the key returns true. -/
theorem record_twice_idempotent_then_seen (s : List String) (k : String) :
    tryInsert (add_seen s (some k)) (some k) = .error .integrityError ∧
    add_seen (add_seen s (some k)) (some k) = add_seen s (some k) ∧
    is_seen (add_seen (add_seen s (some k)) (some k)) k = true := by
  have hm : k ∈ add_seen s (some k) := add_seen_mem s k
  have h1 : tryInsert (add_seen s (some k)) (some k) = .error .integrityError := by
    unfold tryInsert
    simp [hm]
  have h2 : add_seen (add_seen s (some k)) (some k) = add_seen s (some k) :=
    add_seen_of_mem hm
  refine ⟨h1, h2, ?_⟩
  rw [h2]
  simpa [is_seen] using hm

/-- C10: `group_by_topic` is total over arbitrary `tags` values — when
`tags` is `None`, an empty list, or any non-list value (a bare string,
number, bool or dict), the primary tag is `"Other"`, and the head of
`tags` is read only when it is a non-empty list. -/
theorem primary_tag_total_on_tags :
    primary_tag .vnone = .vstr "Other" ∧
    primary_tag (.vlist []) = .vstr "Other" ∧
    (∀ s, primary_tag (.vstr s) = .vstr "Other") ∧
    (∀ b, primary_tag (.vbool b) = .vstr "Other") ∧
    (∀ q, primary_tag (.vnum q) = .vstr "Other") ∧
    (∀ d, primary_tag (.vdict d) = .vstr "Other") ∧
    (∀ t ts, primary_tag (.vlist (t :: ts)) = t) := by
  refine ⟨rfl, rfl, ?_, ?_, ?_, ?_, ?_⟩
  · intro s
    unfold primary_tag
    by_cases h : pyValTruthy (.vstr s) <;> simp [h]
  · intro b
    unfold primary_tag
    by_cases h : pyValTruthy (.vbool b) <;> simp [h]
  · intro q
    unfold primary_tag
    by_cases h : pyValTruthy (.vnum q) <;> simp [h]
  · intro d
    unfold primary_tag
    by_cases h : pyValTruthy (.vdict d) <;> simp [h]
  · intro t ts
    rfl

/-- C5: for every candidate list, the loop of `main` produces exactly
one DigestItem per candidate, whatever the classification capability
does; and when the call itself fails on every candidate, each item
falls back to its own title (empty when absent) as summary, tags
`["Other"]`, sentiment `Neutral` and score `0.5`. -/
theorem enrichment_total_coverage (nd : Option String → Option String)
    (s : List String) (cands : List Article) :
    (∀ llm, (process_loop nd llm s cands).1.length = cands.length) ∧
    (process_loop nd (fun _ => .fail) s cands).1 =
      cands.map (fun a => enrich nd a .fail) ∧
    (∀ a, (enrich nd a .fail).summary = .vstr (a.title.getD "") ∧
          (enrich nd a .fail).tags = .vlist [.vstr "Other"] ∧
          (enrich nd a .fail).sentiment = .vstr "Neutral" ∧
          (enrich nd a .fail).score = .vnum (1/2)) := by
  refine ⟨?_, (process_loop_spec nd (fun _ => .fail) s cands).1, ?_⟩
  · intro llm
    rw [(process_loop_spec nd llm s cands).1]
    simp
  · intro a
    exact ⟨rfl, rfl, rfl, rfl⟩

/-- C4 counterexample: a well-formed structured classification response
with an empty `tags` list is used as-is — the resulting DigestItem
carries `tags = []`, not the claimed default `["Other"]`. -/
theorem parsed_empty_tags_not_defaulted_cex :
    (enrich (fun d => d) aC4 (.parsed respC4)).tags = .vlist [] ∧
    PyVal.vlist [] ≠ PyVal.vlist [.vstr "Other"] := by
  refine ⟨rfl, ?_⟩
  simp

/-- C4 amended: a classification response that parses as JSON is used
as-is, with no validation and no defaulting (tags, sentiment and score
are read with `dict.get`, giving `None` when missing); the defaults
tags `["Other"]`, sentiment `Neutral`, score `0.5` apply only in the
unparsable-response and failed-call tiers. -/
theorem parsed_response_used_as_is (nd : Option String → Option String)
    (a : Article) (d : List (String × PyVal)) (out : String) :
    (enrich nd a (.parsed (.vdict d))).summary = dictGet d "summary" ∧
    (enrich nd a (.parsed (.vdict d))).tags = dictGet d "tags" ∧
    (enrich nd a (.parsed (.vdict d))).sentiment = dictGet d "sentiment" ∧
    (enrich nd a (.parsed (.vdict d))).score = dictGet d "score" ∧
    (enrich nd a (.unparsable out)).summary = .vstr (out.take 400) ∧
    (enrich nd a (.unparsable out)).tags = .vlist [.vstr "Other"] ∧
    (enrich nd a (.unparsable out)).sentiment = .vstr "Neutral" ∧
    (enrich nd a (.unparsable out)).score = .vnum (1/2) ∧
    (enrich nd a .fail).tags = .vlist [.vstr "Other"] ∧
    (enrich nd a .fail).sentiment = .vstr "Neutral" ∧
    (enrich nd a .fail).score = .vnum (1/2) :=
  ⟨rfl, rfl, rfl, rfl, rfl, rfl, rfl, rfl, rfl, rfl, rfl⟩

/-- C3 counterexample: an item whose derived dedupe key is its url
(`id` is `None`) produces a DigestItem, but the loop records
`a.get("id")`, i.e. `None`; the not-null insert fails silently, so the
store stays empty instead of containing the derived key `"u"`. -/
theorem record_key_mismatch_cex :
    derived_key aC3 = some "u" ∧
    (process_loop (fun d => d) (fun _ => .fail) [] [aC3]).1.length = 1 ∧
    (process_loop (fun d => d) (fun _ => .fail) [] [aC3]).2 = [] ∧
    (process_loop (fun d => d) (fun _ => .fail) [] [aC3]).2 ≠ ["u"] := by
  refine ⟨rfl, rfl, rfl, ?_⟩
  simp [process_loop, add_seen, tryInsert, aC3]

/-- C3 amended: for every surviving candidate exactly one DigestItem is
produced, and only after it is produced does the loop call the store —
but with the raw `id` field of the item, not the derived
id → url → title key; when `id` is `None` the insert fails and is
suppressed, recording nothing for that item. -/
theorem seen_record_uses_raw_id (nd : Option String → Option String)
    (llm : Article → LlmOutcome) (s : List String) (cands : List Article) :
    (process_loop nd llm s cands).1 = cands.map (fun a => enrich nd a (llm a)) ∧
    (process_loop nd llm s cands).2 =
      cands.foldl (fun st a => add_seen st a.id) s ∧
    (∀ st a, add_seen st (Article.id a) =
      match a.id with
      | none => st
      | some key => if key ∈ st then st else st ++ [key]) := by
  refine ⟨(process_loop_spec nd llm s cands).1,
          (process_loop_spec nd llm s cands).2, ?_⟩
  intro st a
  unfold add_seen tryInsert
  match h : a.id with
  | none => simp
  | some key => by_cases hk : key ∈ st <;> simp [hk]

theorem fetch_rss_feeds_append (xs ys : List RssFeedFetch) :
    fetch_rss_feeds (xs ++ ys) = fetch_rss_feeds xs ++ fetch_rss_feeds ys := by
  induction xs with
  | nil => simp [fetch_rss_feeds]
  | cons f fs ih => simp [fetch_rss_feeds, ih]

/-- C1 counterexample: with a credential configured, a transport
failure inside `fetch_newsapi` propagates out of the adapter — the
result is the error, not the claimed empty list. -/
theorem newsapi_transport_error_cex :
    fetch_newsapi (some "KEY") (.error .timeout) = .error .timeout ∧
    fetch_newsapi (some "KEY") (.error .timeout) ≠ .ok [] := by
  have h1 : fetch_newsapi (some "KEY") (.error .timeout) = .error .timeout := rfl
  refine ⟨h1, ?_⟩
  rw [h1]
  simp

/-- C1 amended: a missing NewsAPI credential degrades that adapter to
the empty list, and a failing RSS feed degrades to an empty
contribution without affecting the other feeds; but a transport or
network failure inside `fetch_newsapi` with a credential present
propagates and fails the run — the fetching phase is not fully
fault-isolated. -/
theorem adapter_fault_isolation_amended (k : String) (hk : k ≠ "") :
    (∀ t, fetch_newsapi none t = .ok []) ∧
    (∀ e, fetch_newsapi (some k) (.error e) = .error e) ∧
    (∀ pre post u er,
        fetch_rss_feeds (pre ++ ⟨u, .error er⟩ :: post) =
          fetch_rss_feeds pre ++ fetch_rss_feeds post) ∧
    (∀ ms feeds dbRead nd llm deliver store0 e,
        (run_main ms (some k) (.error e) feeds dbRead nd llm deliver store0).1 =
          .error (.net e)) := by
  have h2 : ∀ e : NetError, fetch_newsapi (some k) (.error e) = .error e := by
    intro e
    unfold fetch_newsapi
    simp [pyTruthy, hk]
  refine ⟨fun t => rfl, h2, ?_, ?_⟩
  · intro pre post u er
    rw [fetch_rss_feeds_append]
    simp [fetch_rss_feeds]
  · intro ms feeds dbRead nd llm deliver store0 e
    unfold run_main
    rw [h2 e]

/-- C1 amended, witness at concrete inputs. -/
theorem adapter_fault_isolation_amended_witness :
    ("K" : String) ≠ "" ∧
    fetch_newsapi none (.error .timeout) = .ok [] ∧
    fetch_newsapi (some "K") (.error .timeout) = .error .timeout ∧
    fetch_rss_feeds ([] ++ ⟨"u", .error .typeError⟩ :: []) =
      fetch_rss_feeds [] ++ fetch_rss_feeds [] ∧
    (run_main 5 (some "K") (.error .timeout) [] (fun _ _ => .ok false)
        (fun d => d) (fun _ => .fail) (fun _ => .ok ()) []).1 =
      .error (.net .timeout) := by
  have hk : ("K" : String) ≠ "" := by decide
  have h := adapter_fault_isolation_amended "K" hk
  exact ⟨hk, h.1 _, h.2.1 _, h.2.2.1 [] [] "u" .typeError,
         h.2.2.2 5 [] (fun _ _ => .ok false) (fun d => d) (fun _ => .fail)
           (fun _ => .ok ()) [] .timeout⟩

/-- C2 counterexample: when the membership check fails for the first
item, the whole dedupe call returns the store error — the second item
is not processed, contradicting the claim that only the affected item
is excluded and the others continue. -/
theorem store_read_failure_cex :
    dedupe_and_filter storeC2 [a1C2, a2C2] = .error (.opError "db down") ∧
    dedupe_and_filter storeC2 [a1C2, a2C2] ≠ .ok [a2C2] := by
  have h1 : dedupe_and_filter storeC2 [a1C2, a2C2] = .error (.opError "db down") := rfl
  refine ⟨h1, ?_⟩
  rw [h1]
  simp

/-- C2 amended: a failed membership check is indeed not masked as
unseen — the StoreError propagates out of `dedupe_and_filter` — but it
aborts the whole stage: the affected item and every remaining item are
excluded, rather than processing continuing for the other items. -/
theorem store_read_failure_propagates
    (hasSeen : String → Except StoreError Bool) (a : Article)
    (rest : List Article) (e : StoreError)
    (h1 : pyTruthy (derived_key a) = true)
    (h2 : hasSeen (articleKey a) = .error e) :
    dedupe_and_filter hasSeen (a :: rest) = .error e := by
  unfold dedupe_and_filter dedupe_go
  simp [h1, h2]

/-- C2 amended, witness at concrete inputs. -/
theorem store_read_failure_propagates_witness :
    pyTruthy (derived_key a1C2) = true ∧
    storeC2 (articleKey a1C2) = .error (.opError "db down") ∧
    dedupe_and_filter storeC2 [a1C2, a2C2] = .error (.opError "db down") := by
  refine ⟨by decide, rfl, ?_⟩
  exact store_read_failure_propagates storeC2 a1C2 [a2C2] (.opError "db down")
    (by decide) rfl

theorem sumSizes_insertGroup (g : List (PyVal × List DigestItem)) (k : PyVal)
    (it : DigestItem) : sumSizes (insertGroup g k it) = sumSizes g + 1 := by
  induction g with
  | nil => simp [insertGroup, sumSizes]
  | cons p rest ih =>
      obtain ⟨k2, l⟩ := p
      by_cases h : k2 = k
      · simp [insertGroup, sumSizes, h]
        omega
      · simp [insertGroup, sumSizes, h] at ih ⊢
        omega

theorem lookupGroup_insertGroup (g : List (PyVal × List DigestItem))
    (k k2 : PyVal) (it : DigestItem) :
    lookupGroup (insertGroup g k it) k2 =
      if k = k2 then lookupGroup g k2 ++ [it] else lookupGroup g k2 := by
  induction g with
  | nil => by_cases h : k = k2 <;> simp [insertGroup, lookupGroup, h]
  | cons p rest ih =>
      obtain ⟨k3, l⟩ := p
      by_cases h3 : k3 = k
      · subst h3
        by_cases h2 : k3 = k2
        · subst h2
          simp [insertGroup, lookupGroup]
        · simp [insertGroup, lookupGroup, h2]
      · by_cases h2 : k3 = k2
        · subst h2
          have hk : ¬(k = k3) := fun h => h3 h.symm
          simp [insertGroup, lookupGroup, h3, hk]
        · simp [insertGroup, lookupGroup, h3, h2, ih]

theorem group_by_topic_go_lookup (items : List DigestItem)
    (g : List (PyVal × List DigestItem)) (k : PyVal) :
    lookupGroup
        (items.foldl (fun g2 it => insertGroup g2 (primary_tag it.tags) it) g) k =
      lookupGroup g k ++
        items.filter (fun it => decide (primary_tag it.tags = k)) := by
  induction items generalizing g with
  | nil => simp
  | cons it rest ih =>
      rw [List.foldl_cons, ih, lookupGroup_insertGroup]
      by_cases h : primary_tag it.tags = k
      · simp [List.filter_cons, h]
      · simp [List.filter_cons, h]

theorem group_by_topic_go_sum (items : List DigestItem)
    (g : List (PyVal × List DigestItem)) :
    sumSizes
        (items.foldl (fun g2 it => insertGroup g2 (primary_tag it.tags) it) g) =
      sumSizes g + items.length := by
  induction items generalizing g with
  | nil => simp
  | cons it rest ih =>
      rw [List.foldl_cons, ih, sumSizes_insertGroup]
      simp
      omega

/-- C7 counterexample: a DigestItem built from a well-formed but
unvalidated classification response with nested-list tags has an
unhashable primary tag, so `group_by_topic` raises `TypeError` at the
`primary not in grouped` test — the one-item input yields no grouped
output at all, so no item is assigned to a group and nothing is
conserved. -/
theorem grouping_unhashable_tag_cex :
    itC7.tags = .vlist [.vlist [.vstr "AI"]] ∧
    primary_tag itC7.tags = .vlist [.vstr "AI"] ∧
    pyHashable (primary_tag itC7.tags) = false ∧
    group_by_topic_py [itC7] = .error .unhashableType ∧
    (∀ g, group_by_topic_py [itC7] ≠ .ok g) := by
  refine ⟨rfl, rfl, rfl, rfl, ?_⟩
  intro g h
  have h1 : group_by_topic_py [itC7] = .error .unhashableType := rfl
  rw [h1] at h
  exact absurd h (by simp)

theorem group_by_topic_except_ok (items : List DigestItem)
    (g : List (PyVal × List DigestItem))
    (h : ∀ it ∈ items, pyHashable (primary_tag it.tags) = true) :
    group_by_topic_except g items =
      .ok (items.foldl (fun g2 it => insertGroup g2 (primary_tag it.tags) it) g) := by
  induction items generalizing g with
  | nil => rfl
  | cons it rest ih =>
      have hh := h it (List.mem_cons_self _ _)
      simp only [group_by_topic_except, hh, if_true, List.foldl_cons]
      exact ih _ (fun x hx => h x (List.mem_cons_of_mem _ hx))

/-- C7 amended: grouping conserves items on every input whose primary
tags are all strings — the case for every fallback tier and for
well-formed string tag lists, and exactly where the association-list
dict model coincides with Python key equality. There `group_by_topic`
succeeds, each group is precisely the input subsequence with that
primary tag (each item lands in exactly one group, within-group order
is input order), and the group sizes sum to the input length. An item
whose primary tag is an unhashable value (a list or dict, reachable
from an unvalidated parsed response) instead makes `group_by_topic`
raise `TypeError`, aborting grouping. -/
theorem grouping_conservation_on_string_tags (items : List DigestItem)
    (h : ∀ it ∈ items, ∃ s, primary_tag it.tags = .vstr s) :
    group_by_topic_py items = .ok (group_by_topic items) ∧
    sumSizes (group_by_topic items) = items.length ∧
    (∀ k, lookupGroup (group_by_topic items) k =
      items.filter (fun it => decide (primary_tag it.tags = k))) := by
  refine ⟨?_, ?_, ?_⟩
  · unfold group_by_topic_py group_by_topic
    exact group_by_topic_except_ok items []
      (fun it hit => by
        obtain ⟨s, hs⟩ := h it hit
        rw [hs]
        rfl)
  · have hsum := group_by_topic_go_sum items []
    simpa [group_by_topic, sumSizes] using hsum
  · intro k
    have hl := group_by_topic_go_lookup items [] k
    simpa [group_by_topic, lookupGroup] using hl

/-- C7 amended, witness: a single item from the failed-call tier, whose
primary tag is the string `"Other"`; grouping yields exactly one group
of size one, holding that item. -/
theorem grouping_conservation_on_string_tags_witness :
    (∀ it ∈ [enrich (fun d => d) aC4 LlmOutcome.fail],
        ∃ s, primary_tag it.tags = PyVal.vstr s) ∧
    group_by_topic_py [enrich (fun d => d) aC4 LlmOutcome.fail] =
      .ok (group_by_topic [enrich (fun d => d) aC4 LlmOutcome.fail]) ∧
    sumSizes (group_by_topic [enrich (fun d => d) aC4 LlmOutcome.fail]) = 1 ∧
    lookupGroup (group_by_topic [enrich (fun d => d) aC4 LlmOutcome.fail])
        (.vstr "Other") =
      [enrich (fun d => d) aC4 LlmOutcome.fail] := by
  have hyp : ∀ it ∈ [enrich (fun d => d) aC4 LlmOutcome.fail],
      ∃ s, primary_tag it.tags = PyVal.vstr s := by
    intro it hit
    rw [List.mem_singleton] at hit
    subst hit
    exact ⟨"Other", rfl⟩
  have h := grouping_conservation_on_string_tags _ hyp
  have hp : primary_tag (enrich (fun d => d) aC4 LlmOutcome.fail).tags =
      PyVal.vstr "Other" := rfl
  refine ⟨hyp, h.1, h.2.1, ?_⟩
  rw [h.2.2 (.vstr "Other")]
  simp [List.filter_cons, hp]

theorem pyTruthy_getD {o : Option String} (h : pyTruthy o = true) :
    o = some (o.getD "") := by
  match o with
  | none => simp [pyTruthy] at h
  | some s => rfl

theorem dedupe_go_reliable (seenF : String → Bool) (xs : List Article)
    (ks : List String) :
    dedupe_go (fun k => .ok (seenF k)) xs ks = .ok (dedupe_pure seenF xs ks) := by
  induction xs generalizing ks with
  | nil => rfl
  | cons a rest ih =>
      unfold dedupe_go dedupe_pure
      by_cases h1 : pyTruthy (derived_key a)
      · by_cases h2 : seenF (articleKey a)
        · simp [h1, h2, ih]
        · rw [Bool.not_eq_true] at h2
          by_cases h3 : articleKey a ∈ ks
          · simp [h1, h2, h3, ih]
          · simp [h1, h2, h3, ih]
      · simp [h1, ih]

theorem dedupe_pure_spec (seenF : String → Bool) (xs : List Article)
    (ks : List String) :
    (∀ a ∈ dedupe_pure seenF xs ks,
        pyTruthy (derived_key a) = true ∧ seenF (articleKey a) = false ∧
        articleKey a ∉ ks) ∧
    ((dedupe_pure seenF xs ks).map articleKey).Nodup ∧
    (∀ a ∈ dedupe_pure seenF xs ks, ∃ pre post, xs = pre ++ a :: post ∧
        ∀ b ∈ pre, derived_key b ≠ derived_key a) := by
  induction xs generalizing ks with
  | nil => simp [dedupe_pure]
  | cons x rest ih =>
      by_cases h1 : pyTruthy (derived_key x)
      case neg =>
        have hres : dedupe_pure seenF (x :: rest) ks = dedupe_pure seenF rest ks := by
          simp [dedupe_pure, h1]
        rw [hres]
        refine ⟨(ih ks).1, (ih ks).2.1, ?_⟩
        intro a ha
        obtain ⟨pre, post, hsplit, hpre⟩ := (ih ks).2.2 a ha
        refine ⟨x :: pre, post, by simp [hsplit], ?_⟩
        intro b hb
        rcases List.mem_cons.mp hb with hb | hb
        · subst hb
          intro he
          have hta := ((ih ks).1 a ha).1
          rw [he] at h1
          exact h1 hta
        · exact hpre b hb
      case pos =>
        by_cases h2 : seenF (articleKey x)
        case pos =>
          have hres : dedupe_pure seenF (x :: rest) ks = dedupe_pure seenF rest ks := by
            simp [dedupe_pure, h1, h2]
          rw [hres]
          refine ⟨(ih ks).1, (ih ks).2.1, ?_⟩
          intro a ha
          obtain ⟨pre, post, hsplit, hpre⟩ := (ih ks).2.2 a ha
          refine ⟨x :: pre, post, by simp [hsplit], ?_⟩
          intro b hb
          rcases List.mem_cons.mp hb with hb | hb
          · subst hb
            intro he
            have hka := ((ih ks).1 a ha).2.1
            have hkk : articleKey b = articleKey a := by
              rw [articleKey, articleKey, he]
            rw [hkk] at h2
            simp [h2] at hka
          · exact hpre b hb
        case neg =>
          rw [Bool.not_eq_true] at h2
          by_cases h3 : articleKey x ∈ ks
          case pos =>
            have hres : dedupe_pure seenF (x :: rest) ks = dedupe_pure seenF rest ks := by
              simp [dedupe_pure, h1, h2, h3]
            rw [hres]
            refine ⟨(ih ks).1, (ih ks).2.1, ?_⟩
            intro a ha
            obtain ⟨pre, post, hsplit, hpre⟩ := (ih ks).2.2 a ha
            refine ⟨x :: pre, post, by simp [hsplit], ?_⟩
            intro b hb
            rcases List.mem_cons.mp hb with hb | hb
            · subst hb
              intro he
              have hnotin := ((ih ks).1 a ha).2.2
              have hkk : articleKey b = articleKey a := by
                rw [articleKey, articleKey, he]
              rw [hkk] at h3
              exact hnotin h3
            · exact hpre b hb
          case neg =>
            have hres : dedupe_pure seenF (x :: rest) ks =
                x :: dedupe_pure seenF rest (articleKey x :: ks) := by
              simp [dedupe_pure, h1, h2, h3]
            rw [hres]
            refine ⟨?_, ?_, ?_⟩
            · intro a ha
              rcases List.mem_cons.mp ha with rfl | ha
              · exact ⟨h1, h2, h3⟩
              · have h := (ih (articleKey x :: ks)).1 a ha
                exact ⟨h.1, h.2.1, fun hk => h.2.2 (List.mem_cons_of_mem _ hk)⟩
            · rw [List.map_cons, List.nodup_cons]
              constructor
              · intro hmem
                obtain ⟨a, ha, hkey⟩ := List.mem_map.mp hmem
                have hnotin := ((ih (articleKey x :: ks)).1 a ha).2.2
                apply hnotin
                rw [hkey]
                exact List.mem_cons_self _ _
              · exact (ih (articleKey x :: ks)).2.1
            · intro a ha
              rcases List.mem_cons.mp ha with rfl | ha
              · exact ⟨[], rest, rfl, by simp⟩
              · obtain ⟨pre, post, hsplit, hpre⟩ :=
                  (ih (articleKey x :: ks)).2.2 a ha
                refine ⟨x :: pre, post, by simp [hsplit], ?_⟩
                intro b hb
                rcases List.mem_cons.mp hb with hb | hb
                · intro he
                  have hnotin := ((ih (articleKey x :: ks)).1 a ha).2.2
                  apply hnotin
                  have hkk : articleKey a = articleKey x := by
                    rw [articleKey, articleKey, ← he, hb]
                  rw [hkk]
                  exact List.mem_cons_self _ _
                · exact hpre b hb

/-- C8: for every input batch and pure seen-store state, the
merge-and-dedupe stage succeeds with an ordered output whose derived
keys are pairwise distinct (at most one item per key), each emitted
item being the first occurrence of its key in the recency-sorted order
(published string descending, missing as empty), with no item whose
key the store reports as seen, and with length at most the configured
maximum. -/
theorem dedupe_stage_unique_unseen_bounded (seenF : String → Bool)
    (ms : Nat) (l : List Article) :
    ∃ out,
      dedupe_stage ms (fun k => .ok (seenF k)) l = .ok out ∧
      out = (dedupe_pure seenF (sort_by_published l) []).take ms ∧
      out.length ≤ ms ∧
      (out.map articleKey).Nodup ∧
      (∀ a ∈ out, pyTruthy (derived_key a) = true ∧
        seenF (articleKey a) = false) ∧
      (∀ a ∈ out, ∃ pre post, sort_by_published l = pre ++ a :: post ∧
        ∀ b ∈ pre, derived_key b ≠ derived_key a) := by
  refine ⟨(dedupe_pure seenF (sort_by_published l) []).take ms, ?_, rfl, ?_, ?_, ?_, ?_⟩
  · unfold dedupe_stage dedupe_and_filter
    rw [dedupe_go_reliable]
  · exact List.length_take_le _ _
  · rw [List.map_take]
    exact List.Nodup.sublist (List.take_sublist _ _)
      (dedupe_pure_spec seenF (sort_by_published l) []).2.1
  · intro a ha
    have ha2 := (List.take_sublist _ _).subset ha
    have h := (dedupe_pure_spec seenF (sort_by_published l) []).1 a ha2
    exact ⟨h.1, h.2.1⟩
  · intro a ha
    exact (dedupe_pure_spec seenF (sort_by_published l) []).2.2 a
      ((List.take_sublist _ _).subset ha)

theorem fetch_newsapi_ok (apiKey : Option String) (resp : NewsApiResponse) :
    fetch_newsapi apiKey (.ok resp) = .ok (newsapi_ok_articles apiKey resp) := by
  unfold fetch_newsapi newsapi_ok_articles
  by_cases h : pyTruthy apiKey
  · by_cases h2 : resp.status = some "ok" <;> simp [h, h2]
  · simp [h]

theorem foldl_add_seen_append (cands : List Article) (s : List String) :
    ∃ t, cands.foldl (fun st a => add_seen st a.id) s = s ++ t := by
  induction cands generalizing s with
  | nil => exact ⟨[], by simp⟩
  | cons a rest ih =>
      obtain ⟨t1, ht1⟩ := add_seen_append s a.id
      obtain ⟨t2, ht2⟩ := ih (add_seen s a.id)
      exact ⟨t1 ++ t2, by rw [List.foldl_cons, ht2, ht1, List.append_assoc]⟩

theorem run_main_reliable (ms : Nat) (apiKey : Option String)
    (resp : NewsApiResponse) (feeds : List RssFeedFetch)
    (nd : Option String → Option String) (llm : Article → LlmOutcome)
    (deliver : List (PyVal × List DigestItem) → Except DeliveryError Unit)
    (store0 : List String) :
    run_main ms apiKey (.ok resp) feeds (fun s k => .ok (is_seen s k)) nd llm
        deliver store0 =
      (if ((process_loop nd llm store0
              (main_candidates ms apiKey resp feeds store0)).1).isEmpty then
        (.ok (process_loop nd llm store0
                (main_candidates ms apiKey resp feeds store0)).1,
         (process_loop nd llm store0
            (main_candidates ms apiKey resp feeds store0)).2)
      else
        match deliver (group_by_topic
            (process_loop nd llm store0
              (main_candidates ms apiKey resp feeds store0)).1) with
        | .error e =>
            (.error (.delivery e),
             (process_loop nd llm store0
                (main_candidates ms apiKey resp feeds store0)).2)
        | .ok _ =>
            (.ok (process_loop nd llm store0
                    (main_candidates ms apiKey resp feeds store0)).1,
             (process_loop nd llm store0
                (main_candidates ms apiKey resp feeds store0)).2)) := by
  unfold run_main main_candidates dedupe_and_filter
  rw [fetch_newsapi_ok]
  simp only [dedupe_go_reliable]

/-- C9: when the delivery capability fails, the run fails (whenever a
nonempty digest was built), but the final store state is exactly the
state left by the per-item records of the run — no recorded key is
rolled back, and the prior store content is preserved (the store only
ever grows by appending). -/
theorem delivery_failure_no_rollback (ms : Nat) (apiKey : Option String)
    (resp : NewsApiResponse) (feeds : List RssFeedFetch)
    (nd : Option String → Option String) (llm : Article → LlmOutcome)
    (e : DeliveryError) (store0 : List String) :
    (run_main ms apiKey (.ok resp) feeds (fun s k => .ok (is_seen s k)) nd llm
        (fun _ => .error e) store0).2 =
      (main_candidates ms apiKey resp feeds store0).foldl
        (fun st a => add_seen st a.id) store0 ∧
    (∃ t, (run_main ms apiKey (.ok resp) feeds (fun s k => .ok (is_seen s k)) nd
        llm (fun _ => .error e) store0).2 = store0 ++ t) ∧
    (main_candidates ms apiKey resp feeds store0 ≠ [] →
      (run_main ms apiKey (.ok resp) feeds (fun s k => .ok (is_seen s k)) nd llm
          (fun _ => .error e) store0).1 = .error (.delivery e)) := by
  rw [run_main_reliable]
  have hloop := (process_loop_spec nd llm store0
    (main_candidates ms apiKey resp feeds store0)).2
  have hmap := (process_loop_spec nd llm store0
    (main_candidates ms apiKey resp feeds store0)).1
  obtain ⟨t, ht⟩ :=
    foldl_add_seen_append (main_candidates ms apiKey resp feeds store0) store0
  by_cases hemp : ((process_loop nd llm store0
      (main_candidates ms apiKey resp feeds store0)).1).isEmpty
  · refine ⟨by simp [hemp, hloop], ⟨t, by simp [hemp, hloop, ht]⟩, ?_⟩
    intro hne
    exfalso
    rw [hmap, List.isEmpty_iff] at hemp
    exact hne (List.map_eq_nil_iff.mp hemp)
  · exact ⟨by simp [hemp, hloop], ⟨t, by simp [hemp, hloop, ht]⟩,
      fun _ => by simp [hemp]⟩

/-- C9 witness at concrete inputs: one fresh RSS item, failing
delivery. -/
theorem delivery_failure_no_rollback_witness :
    main_candidates 5 none ⟨some "ok", []⟩
        [⟨"u", .ok ⟨some "F", [⟨some "L", none, some "T", some "2024", none⟩]⟩⟩]
        [] ≠ [] ∧
    (run_main 5 none (.ok ⟨some "ok", []⟩)
        [⟨"u", .ok ⟨some "F", [⟨some "L", none, some "T", some "2024", none⟩]⟩⟩]
        (fun s k => .ok (is_seen s k)) (fun d => d) (fun _ => .fail)
        (fun _ => .error .notConfigured) []).1 =
      .error (.delivery .notConfigured) := by
  have hne : main_candidates 5 none ⟨some "ok", []⟩
      [⟨"u", .ok ⟨some "F", [⟨some "L", none, some "T", some "2024", none⟩]⟩⟩]
      [] ≠ [] := by decide
  have h := delivery_failure_no_rollback 5 none ⟨some "ok", []⟩
    [⟨"u", .ok ⟨some "F", [⟨some "L", none, some "T", some "2024", none⟩]⟩⟩]
    (fun d => d) (fun _ => .fail) .notConfigured []
  exact ⟨hne, h.2.2 hne⟩
